import Mathlib

/-!
Verification development for the Qrack PennyLane/Catalyst device adapter
(pennylane_qrack/qrack_device.cpp).

The adapter's gate-dispatch table, wire bookkeeping, kwargs handling and
result-marshaling logic are embedded directly from the C++ source.  The
Qrack simulation engine (Qrack::QInterface) is an external collaborator:
its primitive operations appear as an explicit call trace, and their
state semantics are modelled from the specification of the Register
Representation Engine boundary (a controlled-unitary primitive keyed by a
control-permutation bitmask, controlled relative-phase, masked Paulis,
exchange primitives, and deterministic-basis-state measurement).
-/

namespace QrackDevice

/-- A 2x2 complex matrix laid out like the C++ `complex mtrx[4]` arrays:
`a` = entry 0 (top left), `b` = entry 1 (top right), `c` = entry 2
(bottom left), `d` = entry 3 (bottom right). -/
structure Mtrx2 where
  a : ℂ
  b : ℂ
  c : ℂ
  d : ℂ

/-- Qrack::SQRT1_2_R1, the double constant 1/sqrt(2). -/
noncomputable def SQRT1_2 : ℝ := (Real.sqrt 2)⁻¹

/-- QRACK_CONST complex SQRT1_2_CMPLX(SQRT1_2_R1, ZERO_R1). -/
noncomputable def SQRT1_2_CMPLX : ℂ := ⟨SQRT1_2, 0⟩

/-- QRACK_CONST complex NEG_SQRT1_2_CMPLX(-SQRT1_2_R1, ZERO_R1). -/
noncomputable def NEG_SQRT1_2_CMPLX : ℂ := ⟨-SQRT1_2, 0⟩

/-- QRACK_CONST complex SQRTI_2_CMPLX(ZERO_R1, SQRT1_2_R1), the value the
controlled overload feeds to UCPhase for the S gate. -/
noncomputable def SQRTI_2_CMPLX : ℂ := ⟨0, SQRT1_2⟩

/-- QRACK_CONST complex NEG_SQRTI_2_CMPLX(ZERO_R1, -SQRT1_2_R1). -/
noncomputable def NEG_SQRTI_2_CMPLX : ℂ := ⟨0, -SQRT1_2⟩

/-- const complex QBRTI_2_CMPLX(ZERO_R1, sqrt(SQRT1_2_R1)). -/
noncomputable def QBRTI_2_CMPLX : ℂ := ⟨0, Real.sqrt SQRT1_2⟩

/-- const complex NEG_QBRTI_2_CMPLX(ZERO_R1, sqrt(-SQRT1_2_R1)).  In C++
this is sqrt of a negative double, i.e. NaN; `Real.sqrt` sends negative
arguments to 0.  No theorem below depends on this value. -/
noncomputable def NEG_QBRTI_2_CMPLX : ℂ := ⟨0, Real.sqrt (-SQRT1_2)⟩

/-- QRACK_CONST complex ONE_PLUS_I_DIV_2 = complex(1/2, 1/2). -/
noncomputable def ONE_PLUS_I_DIV_2 : ℂ := ⟨1 / 2, 1 / 2⟩

/-- QRACK_CONST complex ONE_MINUS_I_DIV_2 = complex(1/2, -1/2). -/
noncomputable def ONE_MINUS_I_DIV_2 : ℂ := ⟨1 / 2, -1 / 2⟩

/-- QRACK_CONST complex pauliX[4]. -/
noncomputable def pauliX : Mtrx2 := ⟨0, 1, 1, 0⟩

/-- QRACK_CONST complex pauliY[4]. -/
noncomputable def pauliY : Mtrx2 := ⟨0, -Complex.I, Complex.I, 0⟩

/-- QRACK_CONST complex pauliZ[4]. -/
noncomputable def pauliZ : Mtrx2 := ⟨1, 0, 0, -1⟩

/-- QRACK_CONST complex sqrtX[4]. -/
noncomputable def sqrtX : Mtrx2 :=
  ⟨ONE_PLUS_I_DIV_2, ONE_MINUS_I_DIV_2, ONE_MINUS_I_DIV_2, ONE_PLUS_I_DIV_2⟩

/-- QRACK_CONST complex iSqrtX[4]. -/
noncomputable def iSqrtX : Mtrx2 :=
  ⟨ONE_MINUS_I_DIV_2, ONE_PLUS_I_DIV_2, ONE_PLUS_I_DIV_2, ONE_MINUS_I_DIV_2⟩

/-- QRACK_CONST complex hadamard[4]. -/
noncomputable def hadamard : Mtrx2 :=
  ⟨SQRT1_2_CMPLX, SQRT1_2_CMPLX, SQRT1_2_CMPLX, NEG_SQRT1_2_CMPLX⟩

/-- The matrix built by the Rot/CRot branches from effective Euler angles
(phi, theta, omega), exactly as in the source (cos0, sin0, expP, expM). -/
noncomputable def rotMtrx (phi theta omega : ℝ) : Mtrx2 :=
  let cos0 : ℝ := Real.cos (theta / 2)
  let sin0 : ℝ := Real.sin (theta / 2)
  let expP : ℂ := Complex.exp (Complex.I * Complex.ofReal ((phi + omega) / 2))
  let expM : ℂ := Complex.exp (Complex.I * Complex.ofReal ((phi - omega) / 2))
  ⟨Complex.ofReal cos0 / expP, -(Complex.ofReal sin0) * expM,
   Complex.ofReal sin0 / expM, Complex.ofReal cos0 * expP⟩

/-- Effective (phi, theta, omega) used by the Rot and CRot branches:
phi = inverse ? -params[2] : params[0], theta = inverse ? -params[1] :
params[1], omega = inverse ? -params[0] : params[2]. -/
def rotAngles (inverse : Bool) (params : List ℝ) : ℝ × ℝ × ℝ :=
  (if inverse then -params.getD 2 0 else params.getD 0 0,
   if inverse then -params.getD 1 0 else params.getD 1 0,
   if inverse then -params.getD 0 0 else params.getD 2 0)

/-- The matrix built by the U3 branch of the controlled overload from
(th, ph, lm) = (params[0], params[1], params[2]); the same formula gives
the engine's U(theta, phi, lambda) primitive. -/
noncomputable def u3Mtrx (th ph lm : ℝ) : Mtrx2 :=
  let cos0 : ℝ := Real.cos (th / 2)
  let sin0 : ℝ := Real.sin (th / 2)
  ⟨Complex.ofReal cos0,
   Complex.ofReal sin0 * ⟨-Real.cos lm, -Real.sin lm⟩,
   Complex.ofReal sin0 * ⟨Real.cos ph, Real.sin ph⟩,
   Complex.ofReal cos0 * ⟨Real.cos (ph + lm), Real.sin (ph + lm)⟩⟩

/-- Modelled from the spec: exact 2x2 matrix inversion (Qrack::inv2x2),
used by the U3 branch of the controlled overload and by MatrixOperation. -/
noncomputable def inv2x2 (m : Mtrx2) : Mtrx2 :=
  let det : ℂ := m.a * m.d - m.b * m.c
  ⟨m.d / det, -m.b / det, -m.c / det, m.a / det⟩

/-- One primitive call on the Qrack engine (qsim), as issued by the
adapter.  Dispatch produces a list of these; their state semantics are
given separately by `primSem`. -/
inductive Prim where
  | X (t : ℕ)
  | Y (t : ℕ)
  | Z (t : ℕ)
  | XMask (mask : ℕ)
  | YMask (mask : ℕ)
  | ZMask (mask : ℕ)
  | SqrtX (t : ℕ)
  | ISqrtX (t : ℕ)
  | RX (th : ℝ) (t : ℕ)
  | RY (th : ℝ) (t : ℕ)
  | RZ (th : ℝ) (t : ℕ)
  | H (t : ℕ)
  | S (t : ℕ)
  | IS (t : ℕ)
  | T (t : ℕ)
  | IT (t : ℕ)
  | Swap (q1 q2 : ℕ)
  | ISwap (q1 q2 : ℕ)
  | IISwap (q1 q2 : ℕ)
  | CU (ctrls : List ℕ) (t : ℕ) (th ph lm : ℝ)
  | Phase (topLeft bottomRight : ℂ) (t : ℕ)
  | U (t : ℕ) (th ph lm : ℝ)
  | Mtrx (m : Mtrx2) (t : ℕ)
  | UCMtrx (ctrls : List ℕ) (m : Mtrx2) (t : ℕ) (perm : ℕ)
  | UCPhase (ctrls : List ℕ) (topLeft bottomRight : ℂ) (t : ℕ) (perm : ℕ)
  | MCPhase (ctrls : List ℕ) (topLeft bottomRight : ℂ) (t : ℕ)
  | CSwap (ctrls : List ℕ) (q1 q2 : ℕ)
  | M (t : ℕ)
  | ForceM (t : ℕ) (v : Bool)
  | Dispose (t : ℕ) (len : ℕ)

/-- wiresToMask: fold the power-of-two weights of the wires into one mask. -/
def wiresToMask (wires : List ℕ) : ℕ :=
  wires.foldl (fun mask t => mask ||| 2 ^ t) 0

/-- The control permutation bitmask: bit i is set when control_values[i]
is true (the loop at the top of the controlled overload). -/
def controlPermOf (vals : List Bool) : ℕ :=
  (List.range vals.length).foldl
    (fun acc i => if vals.getD i false then acc + 2 ^ i else acc) 0

/-- The X conjugation applied around CSwap for control values that are
false (the SWAP/CSWAP and ISWAP branches of the controlled overload). -/
def xFlips (cw : List ℕ) (cv : List Bool) : List Prim :=
  (List.range cw.length).filterMap
    (fun i => if cv.getD i false then none else some (Prim.X (cw.getD i 0)))

/-- QrackDevice::applyNamedOperation, uncontrolled overload: gate name,
target device wires, inversion flag and parameters to a list of engine
primitive calls, or the error the C++ code throws. -/
noncomputable def applyNamedOperation (name : String) (wires : List ℕ)
    (inverse : Bool) (params : List ℝ) : Except String (List Prim) :=
  if name = "PauliX" then
    -- Self-adjoint, so ignore "inverse"
    if 1 < wires.length then .ok [Prim.XMask (wiresToMask wires)]
    else .ok [Prim.X (wires.getD 0 0)]
  else if name = "PauliY" then
    if 1 < wires.length then .ok [Prim.YMask (wiresToMask wires)]
    else .ok [Prim.Y (wires.getD 0 0)]
  else if name = "PauliZ" then
    if 1 < wires.length then .ok [Prim.ZMask (wiresToMask wires)]
    else .ok [Prim.Z (wires.getD 0 0)]
  else if name = "SX" then
    .ok (wires.map (fun t => if inverse then Prim.ISqrtX t else Prim.SqrtX t))
  else if name = "MultiRZ" then
    .ok (wires.map (fun t =>
      Prim.RZ (if inverse then -params.getD 0 0 else params.getD 0 0) t))
  else if name = "Hadamard" then
    .ok (wires.map (fun t => Prim.H t))
  else if name = "S" then
    .ok (wires.map (fun t => if inverse then Prim.IS t else Prim.S t))
  else if name = "T" then
    .ok (wires.map (fun t => if inverse then Prim.IT t else Prim.T t))
  else if name = "SWAP" then
    if wires.length ≠ 2 then
      .error "SWAP must have exactly two target qubits!"
    else .ok [Prim.Swap (wires.getD 0 0) (wires.getD 1 0)]
  else if name = "ISWAP" then
    if wires.length ≠ 2 then
      .error "ISWAP must have exactly two target qubits!"
    else if inverse then .ok [Prim.ISwap (wires.getD 0 0) (wires.getD 1 0)]
    else .ok [Prim.IISwap (wires.getD 0 0) (wires.getD 1 0)]
  else if name = "PSWAP" then
    if wires.length ≠ 2 then
      .error "PSWAP must have exactly two target qubits!"
    else
      let th : ℝ := if inverse then -params.getD 0 0 else params.getD 0 0
      .ok [Prim.CU [wires.getD 0 0] (wires.getD 1 0) 0 0 th,
           Prim.Swap (wires.getD 0 0) (wires.getD 1 0),
           Prim.CU [wires.getD 0 0] (wires.getD 1 0) 0 0 th]
  else if name = "PhaseShift" then
    let bottomRight : ℂ := Complex.exp (Complex.I *
      Complex.ofReal (if inverse then -params.getD 0 0 else params.getD 0 0))
    .ok (wires.map (fun t => Prim.Phase 1 bottomRight t))
  else if name = "RX" then
    .ok (wires.map (fun t =>
      Prim.RX (if inverse then -params.getD 0 0 else params.getD 0 0) t))
  else if name = "RY" then
    .ok (wires.map (fun t =>
      Prim.RY (if inverse then -params.getD 0 0 else params.getD 0 0) t))
  else if name = "RZ" then
    .ok (wires.map (fun t =>
      Prim.RZ (if inverse then -params.getD 0 0 else params.getD 0 0) t))
  else if name = "Rot" then
    let angles := rotAngles inverse params
    .ok (wires.map (fun t =>
      Prim.Mtrx (rotMtrx angles.1 angles.2.1 angles.2.2) t))
  else if name = "U3" then
    .ok (wires.map (fun t =>
      if inverse then Prim.U t (-params.getD 0 0) (-params.getD 2 0) (-params.getD 1 0)
      else Prim.U t (params.getD 0 0) (params.getD 1 0) (params.getD 2 0)))
  else if name = "Identity" then .ok []
  else .error ("Unrecognized gate name: " ++ name)

/-- QrackDevice::applyNamedOperation, controlled overload: control device
wires with their boolean control values, target device wires, inversion
flag and parameters to a list of engine primitive calls, or the error the
C++ code throws. -/
noncomputable def applyNamedOperationC (name : String) (control_wires : List ℕ)
    (control_values : List Bool) (wires : List ℕ) (inverse : Bool)
    (params : List ℝ) : Except String (List Prim) :=
  let controlPerm : ℕ := controlPermOf control_values
  if name = "PauliX" ∨ name = "CNOT" ∨ name = "Toffoli" ∨ name = "MultiControlledX" then
    -- Self-adjoint, so ignore "inverse"
    .ok (wires.map (fun t => Prim.UCMtrx control_wires pauliX t controlPerm))
  else if name = "PauliY" ∨ name = "CY" then
    .ok (wires.map (fun t => Prim.UCMtrx control_wires pauliY t controlPerm))
  else if name = "PauliZ" ∨ name = "CZ" then
    .ok (wires.map (fun t => Prim.UCMtrx control_wires pauliZ t controlPerm))
  else if name = "SX" then
    .ok (wires.map (fun t =>
      Prim.UCMtrx control_wires (if inverse then iSqrtX else sqrtX) t controlPerm))
  else if name = "MultiRZ" then
    let bottomRight : ℂ := Complex.exp (Complex.I *
      Complex.ofReal ((if inverse then -params.getD 0 0 else params.getD 0 0) / 2))
    .ok (wires.map (fun t =>
      Prim.UCPhase control_wires (star bottomRight) bottomRight t controlPerm))
  else if name = "Hadamard" then
    .ok (wires.map (fun t => Prim.UCMtrx control_wires hadamard t controlPerm))
  else if name = "S" then
    .ok (wires.map (fun t =>
      Prim.UCPhase control_wires 1
        (if inverse then NEG_SQRTI_2_CMPLX else SQRTI_2_CMPLX) t controlPerm))
  else if name = "T" then
    .ok (wires.map (fun t =>
      Prim.UCPhase control_wires 1
        (if inverse then NEG_QBRTI_2_CMPLX else QBRTI_2_CMPLX) t controlPerm))
  else if name = "SWAP" ∨ name = "CSWAP" then
    if wires.length ≠ 2 then
      .error "SWAP and CSWAP must have exactly two target qubits!"
    else
      .ok (xFlips control_wires control_values ++
        [Prim.CSwap control_wires (wires.getD 0 0) (wires.getD 1 0)] ++
        xFlips control_wires control_values)
  else if name = "ISWAP" then
    if wires.length ≠ 2 then
      .error "ISWAP must have exactly two target qubits!"
    else
      let mcp_wires : List ℕ := control_wires ++ [wires.getD 0 0]
      let ph : ℂ := if inverse then -Complex.I else Complex.I
      .ok (xFlips control_wires control_values ++
        [Prim.MCPhase mcp_wires ph 1 (wires.getD 1 0),
         Prim.CSwap control_wires (wires.getD 0 0) (wires.getD 1 0),
         Prim.MCPhase mcp_wires ph 1 (wires.getD 1 0)] ++
        xFlips control_wires control_values)
  else if name = "PhaseShift" ∨ name = "ControlledPhaseShift" ∨ name = "CPhase" then
    let bottomRight : ℂ := Complex.exp (Complex.I *
      Complex.ofReal (if inverse then -params.getD 0 0 else params.getD 0 0))
    .ok (wires.map (fun t =>
      Prim.UCPhase control_wires 1 bottomRight t controlPerm))
  else if name = "PSWAP" then
    -- Note: no arity check on `wires` in this branch, unlike SWAP/ISWAP.
    let c : List ℕ := control_wires ++ [wires.getD 0 0]
    let th : ℝ := if inverse then -params.getD 0 0 else params.getD 0 0
    .ok [Prim.CU c (wires.getD 1 0) 0 0 th,
         Prim.CSwap control_wires (wires.getD 0 0) (wires.getD 1 0),
         Prim.CU c (wires.getD 1 0) 0 0 th]
  else if name = "RX" ∨ name = "CRX" then
    let cosine : ℝ := Real.cos ((if inverse then -params.getD 0 0 else params.getD 0 0) / 2)
    let sine : ℝ := Real.sin ((if inverse then -params.getD 0 0 else params.getD 0 0) / 2)
    let mtrx : Mtrx2 := ⟨⟨cosine, 0⟩, ⟨0, -sine⟩, ⟨0, -sine⟩, ⟨cosine, 0⟩⟩
    .ok (wires.map (fun t => Prim.UCMtrx control_wires mtrx t controlPerm))
  else if name = "RY" ∨ name = "CRY" then
    let cosine : ℝ := Real.cos ((if inverse then -params.getD 0 0 else params.getD 0 0) / 2)
    let sine : ℝ := Real.sin ((if inverse then -params.getD 0 0 else params.getD 0 0) / 2)
    let mtrx : Mtrx2 := ⟨⟨cosine, 0⟩, ⟨-sine, 0⟩, ⟨sine, 0⟩, ⟨cosine, 0⟩⟩
    .ok (wires.map (fun t => Prim.UCMtrx control_wires mtrx t controlPerm))
  else if name = "RZ" ∨ name = "CRZ" then
    let bottomRight : ℂ := Complex.exp (Complex.I *
      Complex.ofReal ((if inverse then -params.getD 0 0 else params.getD 0 0) / 2))
    .ok (wires.map (fun t =>
      Prim.UCPhase control_wires (star bottomRight) bottomRight t controlPerm))
  else if name = "Rot" ∨ name = "CRot" then
    let angles := rotAngles inverse params
    .ok (wires.map (fun t =>
      Prim.UCMtrx control_wires (rotMtrx angles.1 angles.2.1 angles.2.2) t controlPerm))
  else if name = "U3" then
    let mtrx : Mtrx2 := u3Mtrx (params.getD 0 0) (params.getD 1 0) (params.getD 2 0)
    let iMtrx : Mtrx2 := inv2x2 mtrx
    .ok (wires.map (fun t =>
      Prim.UCMtrx control_wires (if inverse then iMtrx else mtrx) t controlPerm))
  else if name = "Identity" then .ok []
  else .error ("Unrecognized gate name: " ++ name)

/-- A joint quantum state as the amplitude assigned to each computational
basis index (the engine's native little-endian index ordering). -/
def QState := ℕ → ℂ

/-- Flip bit t of a basis index. -/
def flipBit (t k : ℕ) : ℕ := k ^^^ 2 ^ t

/-- Exchange bits q1 and q2 of a basis index. -/
def swapBits (q1 q2 k : ℕ) : ℕ :=
  if k.testBit q1 = k.testBit q2 then k else (k ^^^ 2 ^ q1) ^^^ 2 ^ q2

/-- Modelled from the spec: apply an arbitrary 2x2 unitary to one target
index, unconditionally (the engine's single-target matrix primitive). -/
noncomputable def applyMtrx (m : Mtrx2) (t : ℕ) (s : QState) : QState :=
  fun k =>
    if k.testBit t then m.c * s (flipBit t k) + m.d * s k
    else m.a * s k + m.b * s (flipBit t k)

/-- Does basis index k satisfy the control condition: for each position i,
bit ctrls[i] of k must equal bit i of the control permutation mask. -/
def ctrlMatch (ctrls : List ℕ) (perm : ℕ) (k : ℕ) : Bool :=
  (List.range ctrls.length).all
    (fun i => k.testBit (ctrls.getD i 0) == perm.testBit i)

/-- Modelled from the spec: the controlled-unitary primitive keyed by a
control-value permutation bitmask (UCMtrx). -/
noncomputable def applyUCMtrx (ctrls : List ℕ) (m : Mtrx2) (t : ℕ) (perm : ℕ)
    (s : QState) : QState :=
  fun k => if ctrlMatch ctrls perm k then applyMtrx m t s k else s k

/-- Modelled from the spec: the controlled relative-phase primitive keyed
by a control-value permutation bitmask (UCPhase): diagonal 2x2 with the
given top-left and bottom-right factors on the target index. -/
noncomputable def applyUCPhase (ctrls : List ℕ) (topLeft bottomRight : ℂ)
    (t : ℕ) (perm : ℕ) (s : QState) : QState :=
  fun k =>
    if ctrlMatch ctrls perm k then
      (if k.testBit t then bottomRight else topLeft) * s k
    else s k

/-- Modelled from the spec: a controlled single-target primitive with all
control values required true (the engine's MCPhase/CSwap/CU condition). -/
def allSet (ctrls : List ℕ) (k : ℕ) : Bool := ctrls.all (fun c => k.testBit c)

/-- Bit positions set in a mask. -/
def maskBits (mask : ℕ) : List ℕ :=
  (List.range mask.size).filter (fun i => mask.testBit i)

/-- Modelled from the spec: state semantics of each engine primitive.
Swap/CSwap are the exchange primitives; ISwap exchanges and applies a
phase factor of i when the two bits differ (IISwap its inverse); XMask,
YMask and ZMask apply the Pauli to every masked index at once; CU is the
all-controls-true controlled U(theta, phi, lambda).  The measurement
primitives M/ForceM and the deallocation primitive Dispose mutate by
collapse/removal; no theorem below relies on their state action, so here
they are carried as trace entries with identity state semantics. -/
noncomputable def primSem : Prim → QState → QState
  | .X t, s => applyMtrx pauliX t s
  | .Y t, s => applyMtrx pauliY t s
  | .Z t, s => applyMtrx pauliZ t s
  | .XMask mask, s => fun k => s (k ^^^ mask)
  | .YMask mask, s => fun k =>
      ((maskBits mask).foldl
        (fun a i => a * (if k.testBit i then Complex.I else -Complex.I)) 1) *
        s (k ^^^ mask)
  | .ZMask mask, s => fun k =>
      ((maskBits mask).foldl
        (fun a i => a * (if k.testBit i then -1 else 1)) 1) * s k
  | .SqrtX t, s => applyMtrx sqrtX t s
  | .ISqrtX t, s => applyMtrx iSqrtX t s
  | .RX th t, s => applyMtrx
      ⟨Complex.ofReal (Real.cos (th / 2)), ⟨0, -Real.sin (th / 2)⟩,
       ⟨0, -Real.sin (th / 2)⟩, Complex.ofReal (Real.cos (th / 2))⟩ t s
  | .RY th t, s => applyMtrx
      ⟨Complex.ofReal (Real.cos (th / 2)), Complex.ofReal (-Real.sin (th / 2)),
       Complex.ofReal (Real.sin (th / 2)), Complex.ofReal (Real.cos (th / 2))⟩ t s
  | .RZ th t, s => applyUCPhase []
      (Complex.exp (-(Complex.I * Complex.ofReal (th / 2))))
      (Complex.exp (Complex.I * Complex.ofReal (th / 2))) t 0 s
  | .H t, s => applyMtrx hadamard t s
  | .S t, s => applyUCPhase [] 1 Complex.I t 0 s
  | .IS t, s => applyUCPhase [] 1 (-Complex.I) t 0 s
  | .T t, s => applyUCPhase [] 1 (Complex.exp (Complex.I * Complex.ofReal (Real.pi / 4))) t 0 s
  | .IT t, s => applyUCPhase [] 1 (Complex.exp (-(Complex.I * Complex.ofReal (Real.pi / 4)))) t 0 s
  | .Swap q1 q2, s => fun k => s (swapBits q1 q2 k)
  | .ISwap q1 q2, s => fun k =>
      if k.testBit q1 = k.testBit q2 then s k
      else Complex.I * s (swapBits q1 q2 k)
  | .IISwap q1 q2, s => fun k =>
      if k.testBit q1 = k.testBit q2 then s k
      else -Complex.I * s (swapBits q1 q2 k)
  | .CU ctrls t th ph lm, s => fun k =>
      if allSet ctrls k then applyMtrx (u3Mtrx th ph lm) t s k else s k
  | .Phase topLeft bottomRight t, s => applyUCPhase [] topLeft bottomRight t 0 s
  | .U t th ph lm, s => applyMtrx (u3Mtrx th ph lm) t s
  | .Mtrx m t, s => applyMtrx m t s
  | .UCMtrx ctrls m t perm, s => applyUCMtrx ctrls m t perm s
  | .UCPhase ctrls topLeft bottomRight t perm, s =>
      applyUCPhase ctrls topLeft bottomRight t perm s
  | .MCPhase ctrls topLeft bottomRight t, s =>
      applyUCPhase ctrls topLeft bottomRight t (2 ^ ctrls.length - 1) s
  | .CSwap ctrls q1 q2, s => fun k =>
      if allSet ctrls k then s (swapBits q1 q2 k) else s k
  | .M _, s => s
  | .ForceM _ _, s => s
  | .Dispose _ _, s => s

/-- Run a primitive call trace on a state. -/
noncomputable def applyTrace (tr : List Prim) (s : QState) : QState :=
  tr.foldl (fun acc p => primSem p acc) s

/-- The adapter's session bookkeeping: the label-to-device-index map
(std::map, kept sorted by label), the allocated_qubits counter, the
engine's current qubit count (qsim->GetQubitCount()), and the shots
setting. -/
structure Device where
  qubitMap : List (ℕ × ℕ)
  allocated : ℕ
  engineQubits : ℕ
  shots : ℕ
  deriving DecidableEq

/-- The constructor for the integer-wires kwarg case: qubit_map[i] = i for
i < wires, allocated_qubits = 0, and qsim = QSIM_CONFIG(mapped_qubits),
an engine created holding `wires` qubits up front. -/
def mkDevice (wires : ℕ) : Device :=
  { qubitMap := (List.range wires).map (fun i => (i, i))
    allocated := 0
    engineQubits := wires
    shots := 1 }

/-- QrackDevice::GetNumQubits: returns qsim->GetQubitCount(). -/
def GetNumQubits (d : Device) : ℕ := d.engineQubits

/-- QrackDevice::AllocateQubit: errors if every mapped qubit is already
allocated; otherwise returns the label found by advancing an iterator
allocated_qubits positions into qubit_map, and bumps the counter.  It
issues no engine call and does not change the engine's qubit count. -/
def AllocateQubit (d : Device) : Except String (ℕ × Device) :=
  if d.qubitMap.length ≤ d.allocated then
    .error ("Catalyst has requested more qubits than exist in device, with "
      ++ toString d.allocated
      ++ " allocated qubits. (Set your wires count high enough, for the device.)")
  else
    .ok ((d.qubitMap.getD d.allocated (0, 0)).1,
      { d with allocated := d.allocated + 1 })

/-- QrackDevice::AllocateQubits: num_qubits successive AllocateQubit
calls, collecting the returned labels. -/
def AllocateQubits (d : Device) : ℕ → Except String (List ℕ × Device)
  | 0 => .ok ([], d)
  | n + 1 =>
    match AllocateQubit d with
    | .error e => .error e
    | .ok (l, d1) =>
      match AllocateQubits d1 n with
      | .error e => .error e
      | .ok (ls, d2) => .ok (l :: ls, d2)

/-- getDeviceWires: map caller labels through qubit_map, throwing on the
first label not present in the map. -/
def getDeviceWires (d : Device) (wires : List ℕ) : Except String (List ℕ) :=
  match wires with
  | [] => .ok []
  | w :: ws =>
    match d.qubitMap.find? (fun p => p.1 == w) with
    | none => .error ("Qubit ID not in wire map: " ++ toString w)
    | some p =>
      match getDeviceWires d ws with
      | .error e => .error e
      | .ok rest => .ok (p.2 :: rest)

/-- Insert keeping std::map key order. -/
def insertSorted (m : List (ℕ × ℕ)) (e : ℕ × ℕ) : List (ℕ × ℕ) :=
  match m with
  | [] => [e]
  | x :: xs => if e.1 < x.1 then e :: x :: xs else x :: insertSorted xs e

/-- std::map::operator[]: return the mapped value for the key, or insert
a value-initialized (zero) entry and return that when the key is absent. -/
def mapBracket (m : List (ℕ × ℕ)) (label : ℕ) : ℕ × List (ℕ × ℕ) :=
  match m.find? (fun p => p.1 == label) with
  | some p => (p.2, m)
  | none => (0, insertSorted m (label, 0))

/-- QrackDevice::ReleaseQubit: id = qubit_map[label] (operator[], which
default-inserts on a missing label), measure id to prevent
denormalization, Dispose(id, 1), then erase the label.  There is no
validation and no error path. -/
def ReleaseQubit (d : Device) (label : ℕ) : List Prim × Device :=
  let r := mapBracket d.qubitMap label
  ([Prim.M r.1, Prim.Dispose r.1 1],
   { d with
      qubitMap := r.2.filter (fun p => p.1 != label)
      engineQubits := d.engineQubits - 1 })

/-- QrackDevice::Measure: calls qsim->ForceM(id, v) or qsim->M(id) on the
raw caller-provided id, without translating it through qubit_map and
without any validation. -/
def Measure (_d : Device) (id : ℕ) (postselect : Option Bool) : List Prim :=
  match postselect with
  | some v => [Prim.ForceM id v]
  | none => [Prim.M id]

/-- The gate names NamedOperation treats as single-target controlled
variants, re-slicing all but the last target wire into the control list. -/
def singleTargetCtlNames : List String :=
  ["MultiControlledX", "CNOT", "CY", "CZ", "ControlledPhaseShift", "CPhase",
   "CRX", "CRY", "CRZ", "CRot", "Toffoli"]

/-- The wire normalization block of QrackDevice::NamedOperation: for the
named controlled variants, all but the last target wire (for CSWAP: all
but the last two) move to the end of the control-wire list with
control-value true. -/
def normalizeWires (name : String) (devWires devCtl : List ℕ)
    (ctlVals : List Bool) : List ℕ × List Bool × List ℕ :=
  if name ∈ singleTargetCtlNames then
    let k := devWires.length - 1
    (devCtl ++ devWires.take k, ctlVals ++ List.replicate k true, devWires.drop k)
  else if name = "CSWAP" then
    let k := devWires.length - 2
    (devCtl ++ devWires.take k, ctlVals ++ List.replicate k true, devWires.drop k)
  else (devCtl, ctlVals, devWires)

/-- QrackDevice::NamedOperation: size check, wire translation, controlled
name normalization, then dispatch to the uncontrolled overload when the
normalized control list is empty and to the controlled overload
otherwise. -/
noncomputable def NamedOperation (name : String) (params : List ℝ)
    (d : Device) (wires : List ℕ) (inverse : Bool)
    (controlled_wires : List ℕ) (controlled_values : List Bool) :
    Except String (List Prim) :=
  if controlled_wires.length ≠ controlled_values.length then
    .error "Controlled wires/values size mismatch"
  else
    match getDeviceWires d wires with
    | .error e => .error e
    | .ok dw =>
      match getDeviceWires d controlled_wires with
      | .error e => .error e
      | .ok dc =>
        let n := normalizeWires name dw dc controlled_values
        if n.1.isEmpty then applyNamedOperation name n.2.2 inverse params
        else applyNamedOperationC name n.1 n.2.1 n.2.2 inverse params

/-- The kwargs keyMap of the constructor.  std::map::operator[] on a key
that was never inserted (for example a noise magnitude kwarg) yields the
value-initialized 0, which the switch statement ignores. -/
def keyMap (key : String) : ℕ :=
  if key = "'wires'" then 1
  else if key = "'shots'" then 2
  else if key = "'is_hybrid_stabilizer'" then 3
  else if key = "'is_tensor_network'" then 4
  else if key = "'is_schmidt_decomposed'" then 5
  else if key = "'is_schmidt_decomposition_parallel'" then 6
  else if key = "'is_qbdd'" then 7
  else if key = "'is_gpu'" then 8
  else if key = "'is_host_pointer'" then 9
  else 0

/-- The configuration fields the constructor's kwargs switch can set. -/
structure DevConfig where
  sh : Bool
  tn : Bool
  sd : Bool
  md : Bool
  bdt : Bool
  oc : Bool
  hp : Bool
  shots : ℕ
  deriving DecidableEq

/-- The default configuration the constructor starts from. -/
def defaultConfig : DevConfig :=
  { sh := true, tn := true, sd := true, md := true, bdt := false,
    oc := true, hp := false, shots := 1 }

/-- One iteration of the constructor's kwargs switch for a non-wires key:
the value string is applied according to keyMap; any unrecognized key
(keyMap 0) falls to the default case and is silently dropped.  The wires
key (case 1) is intercepted before the switch and does not touch the
configuration fields either. -/
def applyKwarg (c : DevConfig) (key value : String) : DevConfig :=
  match keyMap key with
  | 2 => if value = "None" then c else { c with shots := value.toNat?.getD 0 }
  | 3 => { c with sh := value == "True" }
  | 4 => { c with tn := value == "True" }
  | 5 => { c with sd := value == "True" }
  | 6 => { c with md := value == "True" }
  | 7 => { c with bdt := value == "True" }
  | 8 => { c with oc := value == "True" }
  | 9 => { c with hp := value == "True" }
  | _ => c

/-- The whole kwargs loop over already-split key/value pairs. -/
def parseKwargs (c : DevConfig) (kvs : List (String × String)) : DevConfig :=
  kvs.foldl (fun acc p => applyKwarg acc p.1 p.2) c

/-- QrackDevice::SetDeviceShots: stores the value unconditionally; there
is no validation and no error path. -/
def SetDeviceShots (c : DevConfig) (s : ℕ) : DevConfig := { c with shots := s }

/-- The shots == 1 remap loop of Sample and Counts: bit i of the engine
result sets bit numQubits - (i + 1) of the marshaled sample. -/
def sampleRemap (numQubits rev_sample : ℕ) : ℕ :=
  (List.range numQubits).foldl
    (fun acc i =>
      if rev_sample.testBit i then acc + 2 ^ (numQubits - (i + 1)) else acc) 0

/-- The shots == 1 remap loop of PartialSample and PartialCounts: bit
dev_wires[i] of the engine result sets bit n - (i + 1) of the marshaled
sample, n being the number of requested wires. -/
def subsetRemap (devWires : List ℕ) (rev_sample : ℕ) : ℕ :=
  (List.range devWires.length).foldl
    (fun acc i =>
      if rev_sample.testBit (devWires.getD i 0) then
        acc + 2 ^ (devWires.length - (i + 1))
      else acc) 0

/-- Modelled from the spec: MultiShotMeasureMask invoked on a register in
the definite computational basis state m returns the single outcome that
packs, at bit i, whether m has any bit of qPowers[i] set; every shot
observes it, so the outcome map is that one index with the full shot
count. -/
def maskPack (m : ℕ) (qPowers : List ℕ) : ℕ :=
  (List.range qPowers.length).foldl
    (fun acc i => if m &&& qPowers.getD i 0 ≠ 0 then acc + 2 ^ i else acc) 0

/-- One row written by _SampleBody: entry `wire` is 1.0 when bit `wire` of
the outcome index is set, 0.0 otherwise. -/
noncomputable def sampleRow (numQubits sample : ℕ) : List ℝ :=
  (List.range numQubits).map (fun w => if sample.testBit w then (1 : ℝ) else 0)

/-- QrackDevice::_SampleBody: one row per shot per outcome, in outcome-map
order. -/
noncomputable def sampleBody (numQubits : ℕ) (q_samples : List (ℕ × ℕ)) :
    List (List ℝ) :=
  q_samples.foldl
    (fun acc p => acc ++ List.replicate p.2 (sampleRow numQubits p.1)) []

/-- QrackDevice::Sample on an engine currently in the definite basis state
m with numQubits qubits: shots == 1 remaps MAll's result through
sampleRemap; shots > 1 passes qPowers[i] = pow2(i) (engine order, no
remap) to MultiShotMeasureMask. -/
noncomputable def Sample (numQubits m shots : ℕ) : List (List ℝ) :=
  if shots = 1 then
    sampleBody numQubits [(sampleRemap numQubits m, 1)]
  else
    sampleBody numQubits
      [(maskPack m ((List.range numQubits).map (fun i => 2 ^ i)), shots)]

/-- QrackDevice::PartialSample over already-translated device wires, on an
engine in the definite basis state m: shots == 1 remaps MAll's result
through subsetRemap; shots > 1 passes qPowers[i] = pow2(dev_wires[i]) (no
reversal) to MultiShotMeasureMask. -/
noncomputable def PartialSample (devWires : List ℕ) (m shots : ℕ) :
    List (List ℝ) :=
  if shots = 1 then
    sampleBody devWires.length [(subsetRemap devWires m, 1)]
  else
    sampleBody devWires.length
      [(maskPack m (devWires.map (fun w => 2 ^ w)), shots)]

/-- Increment one cell of the counts array. -/
def bumpAt (l : List ℕ) (i cnt : ℕ) : List ℕ := l.set i (l.getD i 0 + cnt)

/-- QrackDevice::_CountsBody: each outcome's low numQubits bits give the
basis-state index whose cell receives that outcome's shot count. -/
def countsBody (numQubits : ℕ) (q_samples : List (ℕ × ℕ)) : List ℕ :=
  q_samples.foldl (fun acc p => bumpAt acc (p.1 % 2 ^ numQubits) p.2)
    (List.replicate (2 ^ numQubits) 0)

/-- QrackDevice::Counts (the counts array; eigvals is just iota) on an
engine in the definite basis state m: shots == 1 remaps MAll's result
through sampleRemap; shots > 1 passes qPowers[i] = pow2(i) (engine order,
no remap) to MultiShotMeasureMask. -/
def Counts (numQubits m shots : ℕ) : List ℕ :=
  if shots = 1 then
    countsBody numQubits [(sampleRemap numQubits m, 1)]
  else
    countsBody numQubits
      [(maskPack m ((List.range numQubits).map (fun i => 2 ^ i)), shots)]

/-- QrackDevice::PartialCounts over already-translated device wires, on an
engine in the definite basis state m: shots == 1 remaps MAll's result
through subsetRemap; shots > 1 passes qPowers[i] =
pow2(dev_wires[size - (i + 1)]) (reversed wire order) to
MultiShotMeasureMask. -/
def PartialCounts (devWires : List ℕ) (m shots : ℕ) : List ℕ :=
  if shots = 1 then
    countsBody devWires.length [(subsetRemap devWires m, 1)]
  else
    countsBody devWires.length
      [(maskPack m ((List.range devWires.length).map
          (fun i => 2 ^ (devWires.getD (devWires.length - (i + 1)) 0))), shots)]

/-- A two-qubit session whose labels 0 and 1 map to device indices 0 and
1 (the integer-wires construction with wires = 2, fully allocated). -/
def demoDevice : Device :=
  { qubitMap := [(0, 0), (1, 1)], allocated := 2, engineQubits := 2, shots := 1 }

/-- The two-qubit basis state with both qubits 1 (engine index 3). -/
noncomputable def c2_state : QState := fun k => if k = 3 then 1 else 0

/-- The two-qubit basis state with qubit 0 set and qubit 1 clear (engine
index 1). -/
noncomputable def c3_state : QState := fun k => if k = 1 then 1 else 0

/-- Every gate name either dispatch overload recognizes, other than the
explicit Identity no-op: the union of the name tests of the two
applyNamedOperation overloads. -/
def gateVocabulary : List String :=
  ["PauliX", "PauliY", "PauliZ", "SX", "MultiRZ", "Hadamard", "S", "T",
   "SWAP", "ISWAP", "PSWAP", "PhaseShift", "RX", "RY", "RZ", "Rot", "U3",
   "CNOT", "Toffoli", "MultiControlledX", "CY", "CZ", "CSWAP",
   "ControlledPhaseShift", "CPhase", "CRX", "CRY", "CRZ", "CRot"]

theorem drop_pred_eq_getLast : ∀ (l : List ℕ) (h : l ≠ []),
    l.drop (l.length - 1) = [l.getLast h]
  | [a], _ => rfl
  | a :: b :: t, _ => by
    have ih := drop_pred_eq_getLast (b :: t) (by simp)
    simpa [List.getLast] using ih

/-- Claim C8: the three-parameter general single-qubit rotation (Rot and
CRot) dispatches, for inverse = true, the matrix built from effective
Euler parameters (phi, theta, omega) = (-params[2], -params[1],
-params[0]), and for inverse = false the matrix built from (params[0],
params[1], params[2]), on both the uncontrolled and the controlled
dispatch paths. -/
theorem c8_rot_inverse_params (p0 p1 p2 : ℝ) (t : ℕ) (cw : List ℕ)
    (cv : List Bool) :
    rotAngles true [p0, p1, p2] = (-p2, -p1, -p0) ∧
    rotAngles false [p0, p1, p2] = (p0, p1, p2) ∧
    applyNamedOperation "Rot" [t] true [p0, p1, p2] =
      .ok [Prim.Mtrx (rotMtrx (-p2) (-p1) (-p0)) t] ∧
    applyNamedOperation "Rot" [t] false [p0, p1, p2] =
      .ok [Prim.Mtrx (rotMtrx p0 p1 p2) t] ∧
    applyNamedOperationC "CRot" cw cv [t] true [p0, p1, p2] =
      .ok [Prim.UCMtrx cw (rotMtrx (-p2) (-p1) (-p0)) t (controlPermOf cv)] ∧
    applyNamedOperationC "CRot" cw cv [t] false [p0, p1, p2] =
      .ok [Prim.UCMtrx cw (rotMtrx p0 p1 p2) t (controlPermOf cv)] :=
  ⟨rfl, rfl, rfl, rfl, rfl, rfl⟩

/-- Claim C9: for every named controlled-variant gate, NamedOperation's
normalization moves all but the last target wire (for CSWAP, all but the
last two) to the end of the explicit control list with control value
true, leaving the final target wire(s) as the target list. -/
theorem c9_controlled_name_normalization :
    (∀ (name : String) (dw dc : List ℕ) (cv : List Bool) (h : dw ≠ []),
      name ∈ singleTargetCtlNames →
      normalizeWires name dw dc cv =
        (dc ++ dw.dropLast, cv ++ List.replicate (dw.length - 1) true,
         [dw.getLast h])) ∧
    (∀ (dw dc : List ℕ) (cv : List Bool), 2 ≤ dw.length →
      normalizeWires "CSWAP" dw dc cv =
        (dc ++ dw.take (dw.length - 2),
         cv ++ List.replicate (dw.length - 2) true,
         dw.drop (dw.length - 2)) ∧
      ((normalizeWires "CSWAP" dw dc cv).2.2).length = 2) := by
  constructor
  · intro name dw dc cv h hmem
    simp only [normalizeWires, if_pos hmem]
    rw [List.dropLast_eq_take, drop_pred_eq_getLast dw h]
  · intro dw dc cv h2
    have hns : "CSWAP" ∉ singleTargetCtlNames := by decide
    constructor
    · rw [normalizeWires, if_neg hns, if_pos rfl]
    · rw [normalizeWires, if_neg hns, if_pos rfl]
      simp only [List.length_drop]
      omega

/-- Claim C9 witness: the normalization at concrete inputs, for CNOT with
one explicit control and for CSWAP with no explicit control. -/
theorem c9_controlled_name_normalization_witness :
    normalizeWires "CNOT" [0, 1] [5] [false] =
      ([5, 0], [false, true], [1]) ∧
    normalizeWires "CSWAP" [2, 0, 1] [] [] = ([2], [true], [0, 1]) := by
  constructor
  · have h := c9_controlled_name_normalization.1 "CNOT" [0, 1] [5] [false]
      (by decide) (by decide)
    simpa using h
  · have h := (c9_controlled_name_normalization.2 [2, 0, 1] [] []
      (by decide)).1
    simpa using h

/-- Claim C10: a gate name outside the fixed vocabulary is rejected with
the distinct unrecognized-gate error by both dispatch overloads, while
the explicit name Identity succeeds on both with an empty primitive
trace, leaving any state unchanged. -/
theorem c10_unknown_name_errors (name : String) (h1 : name ∉ gateVocabulary)
    (h2 : name ≠ "Identity") (w cw : List ℕ) (cv : List Bool) (inv : Bool)
    (p : List ℝ) (s : QState) :
    applyNamedOperation name w inv p =
      .error ("Unrecognized gate name: " ++ name) ∧
    applyNamedOperationC name cw cv w inv p =
      .error ("Unrecognized gate name: " ++ name) ∧
    applyNamedOperation "Identity" w inv p = .ok [] ∧
    applyNamedOperationC "Identity" cw cv w inv p = .ok [] ∧
    applyTrace [] s = s := by
  simp only [gateVocabulary, List.mem_cons, List.not_mem_nil, or_false,
    not_or] at h1
  obtain ⟨n01, n02, n03, n04, n05, n06, n07, n08, n09, n10, n11, n12, n13,
    n14, n15, n16, n17, n18, n19, n20, n21, n22, n23, n24, n25, n26, n27,
    n28, n29⟩ := h1
  refine ⟨?_, ?_, ?_, ?_, rfl⟩
  · simp [applyNamedOperation, n01, n02, n03, n04, n05, n06, n07, n08, n09,
      n10, n11, n12, n13, n14, n15, n16, n17, h2]
  · simp [applyNamedOperationC, n01, n02, n03, n04, n05, n06, n07, n08, n09,
      n10, n11, n12, n13, n14, n15, n16, n17, n18, n19, n20, n21, n22, n23,
      n24, n25, n26, n27, n28, n29, h2]
  · rfl
  · rfl

/-- Claim C10 witness: the name QFT is outside the vocabulary and is
rejected by both overloads; Identity is accepted with no primitive
calls. -/
theorem c10_unknown_name_errors_witness :
    applyNamedOperation "QFT" [0] false [] =
      .error ("Unrecognized gate name: " ++ "QFT") ∧
    applyNamedOperationC "QFT" [1] [true] [0] false [] =
      .error ("Unrecognized gate name: " ++ "QFT") ∧
    applyNamedOperation "Identity" [0] false [] = .ok [] ∧
    applyNamedOperationC "Identity" [1] [true] [0] false [] = .ok [] ∧
    applyTrace [] c2_state = c2_state :=
  c10_unknown_name_errors "QFT" (by decide) (by decide) [0] [1] [true]
    false [] c2_state

/-- Claim C7 (refuting evaluation): the controlled PSWAP branch performs
no arity check: called with three target wires it succeeds, issuing its
CU and CSwap primitives on the first two targets, instead of rejecting
the call before any primitive is issued the way the uncontrolled PSWAP
branch (and SWAP/ISWAP in both overloads) does. -/
theorem c7_controlled_pswap_no_arity_check :
    applyNamedOperationC "PSWAP" [3] [true] [0, 1, 2] false [(1 : ℝ) / 2] =
      .ok [Prim.CU [3, 0] 1 0 0 ((1 : ℝ) / 2),
           Prim.CSwap [3] 0 1,
           Prim.CU [3, 0] 1 0 0 ((1 : ℝ) / 2)] ∧
    ([0, 1, 2] : List ℕ).length ≠ 2 ∧
    applyNamedOperation "PSWAP" [0, 1, 2] false [(1 : ℝ) / 2] =
      .error "PSWAP must have exactly two target qubits!" :=
  ⟨rfl, by decide, rfl⟩

/-- Claim C5 (refuting evaluation): releasing an unknown qubit handle
does not fail: ReleaseQubit's std::map operator[] default-inserts the
missing label, so the call returns normally after measuring and disposing
device qubit 0, mutating the engine state; Measure forwards the raw
unknown handle to the engine with no map lookup or validation at all. -/
theorem c5_invalid_handle_mutates :
    demoDevice.qubitMap.find? (fun p => p.1 == 5) = none ∧
    ReleaseQubit demoDevice 5 =
      ([Prim.M 0, Prim.Dispose 0 1], { demoDevice with engineQubits := 1 }) ∧
    Measure demoDevice 5 none = [Prim.M 5] :=
  ⟨rfl, rfl, rfl⟩

/-- Claim C6 counterexample: on a session constructed with 2 wires,
allocating 2 qubits succeeds but GetNumQubits stays 2 — it does not
increase by N = 2 as the claim states. -/
theorem c6_alloc_does_not_grow :
    AllocateQubits (mkDevice 2) 2 =
      .ok ([0, 1], { qubitMap := [(0, 0), (1, 1)], allocated := 2,
                     engineQubits := 2, shots := 1 }) ∧
    GetNumQubits (mkDevice 2) = 2 ∧
    GetNumQubits { qubitMap := [(0, 0), (1, 1)], allocated := 2,
                   engineQubits := 2, shots := 1 } = 2 ∧
    (2 : ℕ) ≠ 2 + 2 :=
  ⟨rfl, rfl, rfl, by decide⟩

/-- Claim C6 as amended: AllocateQubit hands out the next pre-created
label from the wire map fixed at construction; allocating N qubits within
the remaining capacity returns N labels and advances the allocated
counter by N while the engine qubit count (GetNumQubits) stays unchanged,
and allocation beyond the configured wire count fails with an error. -/
theorem c6_alloc_amended :
    (∀ (d : Device) (n : ℕ), d.allocated + n ≤ d.qubitMap.length →
      ∃ labels d2, AllocateQubits d n = .ok (labels, d2) ∧
        labels.length = n ∧ GetNumQubits d2 = GetNumQubits d ∧
        d2.allocated = d.allocated + n ∧ d2.qubitMap = d.qubitMap) ∧
    (∀ d : Device, d.qubitMap.length ≤ d.allocated →
      ∃ msg, AllocateQubit d = .error msg) := by
  constructor
  · intro d n
    induction n generalizing d with
    | zero =>
      intro _
      exact ⟨[], d, rfl, rfl, rfl, (Nat.add_zero _).symm, rfl⟩
    | succ n ih =>
      intro h
      have h1 : AllocateQubit d =
          .ok ((d.qubitMap.getD d.allocated (0, 0)).1,
            { d with allocated := d.allocated + 1 }) := by
        rw [AllocateQubit, if_neg (by omega)]
      obtain ⟨ls, d2, hEq, hlen, hq, ha, hm⟩ :=
        ih { d with allocated := d.allocated + 1 } (by simp; omega)
      refine ⟨(d.qubitMap.getD d.allocated (0, 0)).1 :: ls, d2, ?_, ?_, hq,
        ?_, hm⟩
      · simp only [AllocateQubits, h1, hEq]
      · simp [hlen]
      · simp only at ha
        omega
  · intro d h
    exact ⟨_, by rw [AllocateQubit, if_pos h]⟩

/-- Claim C6 amended witness: both parts at concrete sessions. -/
theorem c6_alloc_amended_witness :
    (∃ labels d2, AllocateQubits (mkDevice 2) 2 = .ok (labels, d2) ∧
      labels.length = 2 ∧ GetNumQubits d2 = GetNumQubits (mkDevice 2) ∧
      d2.allocated = (mkDevice 2).allocated + 2 ∧
      d2.qubitMap = (mkDevice 2).qubitMap) ∧
    (∃ msg, AllocateQubit demoDevice = .error msg) :=
  ⟨c6_alloc_amended.1 (mkDevice 2) 2 (by decide),
   c6_alloc_amended.2 demoDevice (by decide)⟩

/-- Claim C4 (refuting evaluation): the session holds no noise magnitude
at all — a noise kwarg is not in keyMap, so the constructor's switch
silently drops it — and SetDeviceShots stores any shots value with no
validation and no error path; sampling then proceeds for every shots
value.  Nothing ever rejects nonzero noise combined with shots > 1. -/
theorem c4_noise_never_rejected :
    keyMap "'noise'" = 0 ∧
    (∀ (c : DevConfig) (v : String), applyKwarg c "'noise'" v = c) ∧
    (∀ (kvs : List (String × String)) (c : DevConfig),
      parseKwargs c (("'noise'", "0.25") :: kvs) = parseKwargs c kvs) ∧
    (∀ (c : DevConfig) (s : ℕ), SetDeviceShots c s = { c with shots := s }) ∧
    (∀ (numQubits m shots : ℕ), (Sample numQubits m shots).length = shots) := by
  refine ⟨rfl, fun c v => rfl, fun kvs c => rfl, fun c s => rfl, ?_⟩
  intro n m s
  by_cases hs : s = 1
  · subst hs
    simp [Sample, sampleBody]
  · simp [Sample, hs, sampleBody]

/-- Claim C1 (refuting evaluation): on a two-qubit register held in the
definite basis state with device qubit 0 set (engine index 1, identity
wire map), the shots == 1 branches and the PartialCounts shots > 1 branch
report the bit-reversed outcome (sample rows [0, 1], histogram cell 0b10),
but the shots > 1 branches of Sample, PartialSample and Counts build
qPowers in engine order and report the unremapped outcome (rows [1, 0],
histogram cell 0b01): the bit-order remap is not applied identically on
every result path. -/
theorem c1_bitorder_inconsistent :
    Sample 2 1 1 = [[0, 1]] ∧
    Sample 2 1 2 = [[1, 0], [1, 0]] ∧
    PartialSample [0, 1] 1 1 = [[0, 1]] ∧
    PartialSample [0, 1] 1 2 = [[1, 0], [1, 0]] ∧
    Counts 2 1 1 = [0, 0, 1, 0] ∧
    Counts 2 1 2 = [0, 2, 0, 0] ∧
    PartialCounts [0, 1] 1 1 = [0, 0, 1, 0] ∧
    PartialCounts [0, 1] 1 2 = [0, 0, 2, 0] ∧
    Counts 2 1 2 ≠ PartialCounts [0, 1] 1 2 ∧
    (([[0, 1]] : List (List ℝ)) ≠ [[1, 0]]) := by
  have e1 : sampleRemap 2 1 = 2 := by decide
  have e2 : maskPack 1 ((List.range 2).map (fun i => 2 ^ i)) = 1 := by decide
  have e3 : subsetRemap [0, 1] 1 = 2 := by decide
  have e4 : maskPack 1 (([0, 1] : List ℕ).map (fun w => 2 ^ w)) = 1 := by
    decide
  have e5 : maskPack 1 [1, 2] = 1 := by decide
  have b20 : Nat.testBit 2 0 = false := by decide
  have b21 : Nat.testBit 2 1 = true := by decide
  have b10 : Nat.testBit 1 0 = true := by decide
  have b11 : Nat.testBit 1 1 = false := by decide
  have hr : List.range 2 = [0, 1] := rfl
  refine ⟨?_, ?_, ?_, ?_, by decide, by decide, by decide, by decide,
    by decide, ?_⟩
  · simp [Sample, sampleBody, sampleRow, e1, b20, b21, hr]
  · simp [Sample, sampleBody, sampleRow, e2, e5, b10, b11, hr]
  · simp [PartialSample, sampleBody, sampleRow, e3, b20, b21, hr]
  · simp [PartialSample, sampleBody, sampleRow, e4, e5, b10, b11, hr]
  · intro hcontra
    have : ((0 : ℝ) :: [1]) = ((1 : ℝ) :: [0]) := by
      simpa using congrArg (fun l => l.headI) hcontra
    have h0 : (0 : ℝ) = 1 := by
      simpa using congrArg (fun l => l.headI) this
    norm_num at h0

/-- Claim C2 (refuting evaluation): the controlled dispatch path for the
S gate issues UCPhase with bottom-right entry (0, 1/sqrt(2)) forward and
(0, -1/sqrt(2)) inverted — a non-unitary pair whose product is 1/2, not
1.  Dispatching S forward and then inverted on the |11> state of a
control/target pair therefore leaves amplitude 1/2 on |11> instead of
restoring the pre-gate amplitude 1. -/
theorem c2_controlled_s_breaks_roundtrip :
    applyNamedOperationC "S" [0] [true] [1] false [] =
      .ok [Prim.UCPhase [0] 1 SQRTI_2_CMPLX 1 1] ∧
    applyNamedOperationC "S" [0] [true] [1] true [] =
      .ok [Prim.UCPhase [0] 1 NEG_SQRTI_2_CMPLX 1 1] ∧
    applyTrace [Prim.UCPhase [0] 1 NEG_SQRTI_2_CMPLX 1 1]
      (applyTrace [Prim.UCPhase [0] 1 SQRTI_2_CMPLX 1 1] c2_state) 3 =
      1 / 2 ∧
    c2_state 3 = 1 ∧ ((1 : ℂ) / 2 ≠ 1) := by
  have hc : ctrlMatch [0] 1 3 = true := by decide
  have ht : Nat.testBit 3 1 = true := by decide
  have ha : SQRT1_2 * SQRT1_2 = 1 / 2 := by
    rw [SQRT1_2, ← mul_inv, Real.mul_self_sqrt (by norm_num : (0 : ℝ) ≤ 2)]
    norm_num
  have hhalf : ((1 : ℂ) / 2) = Complex.ofReal (1 / 2) := by norm_num
  have key : NEG_SQRTI_2_CMPLX * SQRTI_2_CMPLX = 1 / 2 := by
    rw [NEG_SQRTI_2_CMPLX, SQRTI_2_CMPLX, hhalf]
    apply Complex.ext
    · simpa [Complex.mul_re] using ha
    · simp [Complex.mul_im]
  refine ⟨rfl, rfl, ?_, rfl, by norm_num⟩
  have outer : ∀ (bot : ℂ) (s : QState),
      applyTrace [Prim.UCPhase [0] 1 bot 1 1] s 3 = bot * s 3 := by
    intro bot s
    simp [applyTrace, primSem, applyUCPhase, hc, ht]
  rw [outer, outer]
  have h3 : c2_state 3 = 1 := by simp [c2_state]
  rw [h3, mul_one, key]

/-- Claim C3 (refuting evaluation): the uncontrolled ISWAP branch with
inverse = false calls the engine's IISwap (the inverse iSWAP, phase
factor -i), while the controlled branch invoked with empty control lists
applies the +i phase decomposition: on the basis state |01> the two
dispatch paths produce amplitudes -i and +i on |10> respectively, so
uncontrolled dispatch is not the empty-control case of controlled
dispatch. -/
theorem c3_iswap_paths_differ :
    applyNamedOperation "ISWAP" [0, 1] false [] = .ok [Prim.IISwap 0 1] ∧
    applyNamedOperationC "ISWAP" [] [] [0, 1] false [] =
      .ok [Prim.MCPhase [0] Complex.I 1 1, Prim.CSwap [] 0 1,
           Prim.MCPhase [0] Complex.I 1 1] ∧
    applyTrace [Prim.IISwap 0 1] c3_state 2 = -Complex.I ∧
    applyTrace [Prim.MCPhase [0] Complex.I 1 1, Prim.CSwap [] 0 1,
      Prim.MCPhase [0] Complex.I 1 1] c3_state 2 = Complex.I ∧
    (-Complex.I : ℂ) ≠ Complex.I := by
  have d1 : Nat.testBit 2 0 = false := by decide
  have d2 : Nat.testBit 2 1 = true := by decide
  have hsw : swapBits 0 1 2 = 1 := by decide
  have hm1 : ctrlMatch [0] 1 2 = false := by decide
  have hm2 : ctrlMatch [0] 1 1 = true := by decide
  have ha2 : allSet [] 2 = true := by decide
  have ht11 : Nat.testBit 1 1 = false := by decide
  refine ⟨rfl, rfl, ?_, ?_, ?_⟩
  · simp [applyTrace, primSem, d1, d2, hsw, c3_state]
  · simp [applyTrace, primSem, applyUCPhase, hm1, hm2, ha2, hsw, ht11,
      c3_state, d1, d2]
  · norm_num [Complex.ext_iff]

end QrackDevice
